import Mathlib

/-!
Verification development for the Pawn Abstract Machine (AMX) of this
repository.  The only source file present is `source/amx/amx.h`; the
constants, structure layouts and macros below are embedded from that
header.  The implementation file `amx.c` is absent from the sources, so
the behaviour of the API functions (`amx_Init`, `amx_Push`, `amx_Allot`,
`amx_Release`, `amx_Exec`, `amx_SetUserData`) is modelled from the
specification, as marked in each doc comment.

Host machine integers are modelled as `Int` (cells are signed machine
words; the quantities involved in the stack/heap discipline stay far from
the word boundaries, so no wrap-around modelling is needed), byte counts
as `Nat`, and the NULL-able `data` pointer as `Option Int`.
-/

namespace Amx

/-- Bytes per cell, `sizeof(cell)`, for a cell width of `w` bits
(PAWN_CELL_SIZE is 16, 32 or 64 in amx.h). -/
def cellBytes (w : Nat) : Nat := w / 8

/-- CUR_FILE_VERSION from amx.h: current file version. -/
def CUR_FILE_VERSION : Nat := 9

/-- MIN_FILE_VERSION from amx.h: lowest supported file format version. -/
def MIN_FILE_VERSION : Nat := 6

/-- MIN_AMX_VERSION from amx.h: minimum AMX version needed for the current
file format. -/
def MIN_AMX_VERSION : Nat := 10

/-- MAX_FILE_VER_JIT from amx.h: file version supported by the JIT. -/
def MAX_FILE_VER_JIT : Nat := 8

/-- MIN_AMX_VER_JIT from amx.h: AMX version supported by the JIT. -/
def MIN_AMX_VER_JIT : Nat := 8

/-- STKMARGIN from amx.h: `(cell)(16*sizeof(cell))`, in bytes. -/
def STKMARGIN (w : Nat) : Int := 16 * (cellBytes w : Int)

/-- sEXPMAX from amx.h: maximum name length for file version at most 6. -/
def sEXPMAX : Nat := 19

/-- AMX_USERNUM from amx.h: number of user data slots (default value). -/
def AMX_USERNUM : Nat := 4

/-- Value assignment rule of a C enum: an enumerator with an explicit value
takes it, any other takes the previous value plus one, and the first
defaults to the running counter (zero at the start of the enum). -/
def enumAssign : List (Option Nat) → Nat → List Nat
  | [], _ => []
  | some v :: rest, _ => v :: enumAssign rest (v + 1)
  | none :: rest, next => next :: enumAssign rest (next + 1)

/-- The declaration order of the AMX error enum (amx.h): NONE, EXIT,
ASSERT, STACKERR, BOUNDS, MEMACCESS, INVINSTR, STACKLOW, HEAPLOW,
CALLBACK, NATIVE, DIVIDE, SLEEP, INVSTATE, then MEMORY with the single
explicit value 16, then FORMAT, VERSION, NOTFOUND, INDEX, DEBUG, INIT,
USERDATA, INIT_JIT, PARAMS, DOMAIN, GENERAL. -/
def amxErrDecl : List (Option Nat) :=
  [none, none, none, none, none, none, none, none, none, none, none,
   none, none, none,
   some 16,
   none, none, none, none, none, none, none, none, none, none, none]

/-- The values the C enum rule assigns to the AMX error enumerators, in
declaration order. -/
def amxErrValues : List Nat := enumAssign amxErrDecl 0

/-- AMX_ERR_NONE (position 0 of the error enum). -/
def AMX_ERR_NONE : Nat := amxErrValues.getD 0 0

/-- AMX_ERR_EXIT (position 1 of the error enum). -/
def AMX_ERR_EXIT : Nat := amxErrValues.getD 1 0

/-- AMX_ERR_ASSERT (position 2 of the error enum). -/
def AMX_ERR_ASSERT : Nat := amxErrValues.getD 2 0

/-- AMX_ERR_STACKERR (position 3 of the error enum). -/
def AMX_ERR_STACKERR : Nat := amxErrValues.getD 3 0

/-- AMX_ERR_BOUNDS (position 4 of the error enum). -/
def AMX_ERR_BOUNDS : Nat := amxErrValues.getD 4 0

/-- AMX_ERR_MEMACCESS (position 5 of the error enum). -/
def AMX_ERR_MEMACCESS : Nat := amxErrValues.getD 5 0

/-- AMX_ERR_INVINSTR (position 6 of the error enum). -/
def AMX_ERR_INVINSTR : Nat := amxErrValues.getD 6 0

/-- AMX_ERR_STACKLOW (position 7 of the error enum). -/
def AMX_ERR_STACKLOW : Nat := amxErrValues.getD 7 0

/-- AMX_ERR_HEAPLOW (position 8 of the error enum). -/
def AMX_ERR_HEAPLOW : Nat := amxErrValues.getD 8 0

/-- AMX_ERR_CALLBACK (position 9 of the error enum). -/
def AMX_ERR_CALLBACK : Nat := amxErrValues.getD 9 0

/-- AMX_ERR_NATIVE (position 10 of the error enum). -/
def AMX_ERR_NATIVE : Nat := amxErrValues.getD 10 0

/-- AMX_ERR_DIVIDE (position 11 of the error enum). -/
def AMX_ERR_DIVIDE : Nat := amxErrValues.getD 11 0

/-- AMX_ERR_SLEEP (position 12 of the error enum). -/
def AMX_ERR_SLEEP : Nat := amxErrValues.getD 12 0

/-- AMX_ERR_INVSTATE (position 13 of the error enum). -/
def AMX_ERR_INVSTATE : Nat := amxErrValues.getD 13 0

/-- AMX_ERR_MEMORY (position 14 of the error enum, explicit value 16). -/
def AMX_ERR_MEMORY : Nat := amxErrValues.getD 14 0

/-- AMX_ERR_FORMAT (position 15 of the error enum). -/
def AMX_ERR_FORMAT : Nat := amxErrValues.getD 15 0

/-- AMX_ERR_VERSION (position 16 of the error enum). -/
def AMX_ERR_VERSION : Nat := amxErrValues.getD 16 0

/-- AMX_ERR_NOTFOUND (position 17 of the error enum). -/
def AMX_ERR_NOTFOUND : Nat := amxErrValues.getD 17 0

/-- AMX_ERR_INDEX (position 18 of the error enum). -/
def AMX_ERR_INDEX : Nat := amxErrValues.getD 18 0

/-- AMX_ERR_DEBUG (position 19 of the error enum). -/
def AMX_ERR_DEBUG : Nat := amxErrValues.getD 19 0

/-- AMX_ERR_INIT (position 20 of the error enum). -/
def AMX_ERR_INIT : Nat := amxErrValues.getD 20 0

/-- AMX_ERR_USERDATA (position 21 of the error enum). -/
def AMX_ERR_USERDATA : Nat := amxErrValues.getD 21 0

/-- AMX_ERR_INIT_JIT (position 22 of the error enum). -/
def AMX_ERR_INIT_JIT : Nat := amxErrValues.getD 22 0

/-- AMX_ERR_PARAMS (position 23 of the error enum). -/
def AMX_ERR_PARAMS : Nat := amxErrValues.getD 23 0

/-- AMX_ERR_DOMAIN (position 24 of the error enum). -/
def AMX_ERR_DOMAIN : Nat := amxErrValues.getD 24 0

/-- AMX_ERR_GENERAL (position 25 of the error enum). -/
def AMX_ERR_GENERAL : Nat := amxErrValues.getD 25 0

/-- AMX_MAGIC_16 from amx.h. -/
def AMX_MAGIC_16 : Nat := 0xf1e2

/-- AMX_MAGIC_32 from amx.h. -/
def AMX_MAGIC_32 : Nat := 0xf1e0

/-- AMX_MAGIC_64 from amx.h. -/
def AMX_MAGIC_64 : Nat := 0xf1e1

/-- AMX_MAGIC from amx.h: the magic selected by PAWN_CELL_SIZE; no magic
exists for an unsupported cell width (the header refuses to compile
there). -/
def AMX_MAGIC : Nat → Option Nat
  | 16 => some AMX_MAGIC_16
  | 32 => some AMX_MAGIC_32
  | 64 => some AMX_MAGIC_64
  | _ => none

/-- AMX_FLAG_DEBUG from amx.h: symbolic info available. -/
def AMX_FLAG_DEBUG : Nat := 0x02

/-- AMX_FLAG_COMPACT from amx.h: compact encoding. -/
def AMX_FLAG_COMPACT : Nat := 0x04

/-- AMX_FLAG_SLEEP from amx.h: script uses the sleep instruction. -/
def AMX_FLAG_SLEEP : Nat := 0x08

/-- AMX_FLAG_NOCHECKS from amx.h: no array bounds checking. -/
def AMX_FLAG_NOCHECKS : Nat := 0x10

/-- AMX_FLAG_NO_RELOC from amx.h: no relocations done. -/
def AMX_FLAG_NO_RELOC : Nat := 0x200

/-- AMX_FLAG_NO_SYSREQD from amx.h: SYSREQ.D is not used. -/
def AMX_FLAG_NO_SYSREQD : Nat := 0x400

/-- AMX_FLAG_SYSREQN from amx.h: new (optimized) version of SYSREQ. -/
def AMX_FLAG_SYSREQN : Nat := 0x800

/-- AMX_FLAG_NTVREG from amx.h: all native functions are registered. -/
def AMX_FLAG_NTVREG : Nat := 0x1000

/-- AMX_FLAG_JITC from amx.h: abstract machine is JIT compiled. -/
def AMX_FLAG_JITC : Nat := 0x2000

/-- AMX_FLAG_BROWSE from amx.h: busy browsing. -/
def AMX_FLAG_BROWSE : Nat := 0x4000

/-- AMX_FLAG_RELOC from amx.h: jump/call addresses relocated. -/
def AMX_FLAG_RELOC : Nat := 0x8000

/-- The eleven named flag bits of amx.h, in declaration order. -/
def amxFlagList : List Nat :=
  [AMX_FLAG_DEBUG, AMX_FLAG_COMPACT, AMX_FLAG_SLEEP, AMX_FLAG_NOCHECKS,
   AMX_FLAG_NO_RELOC, AMX_FLAG_NO_SYSREQD, AMX_FLAG_SYSREQN,
   AMX_FLAG_NTVREG, AMX_FLAG_JITC, AMX_FLAG_BROWSE, AMX_FLAG_RELOC]

/-- AMX_EXEC_MAIN from amx.h: start at the program entry point. -/
def AMX_EXEC_MAIN : Int := -1

/-- AMX_EXEC_CONT from amx.h: continue from the last address. -/
def AMX_EXEC_CONT : Int := -2

/-- The AMX_HEADER structure of amx.h (both the file format and the
in-memory format).  Signed 32-bit fields are modelled as `Int`, the
unsigned 16-bit magic, the two byte-wide version fields, the flags and
defsize as `Nat`. -/
structure AMX_HEADER where
  size : Int
  magic : Nat
  file_version : Nat
  amx_version : Nat
  flags : Nat
  defsize : Nat
  cod : Int
  dat : Int
  hea : Int
  stp : Int
  cip : Int
  publics : Int
  natives : Int
  libraries : Int
  pubvars : Int
  tags : Int
  nametable : Int
deriving DecidableEq, Repr

/-- Packed byte size of AMX_HEADER: one int32, one uint16, two chars, two
int16 fields and eleven int32 offsets. -/
def sizeofAMX_HEADER : Nat := 4 + 2 + 1 + 1 + 2 + 2 + 11 * 4

/-- Packed byte size of AMX_FUNCSTUB (amx.h): a ucell address followed by
the inline name field `char name[sEXPMAX+1]`. -/
def sizeofAMX_FUNCSTUB (w : Nat) : Nat := cellBytes w + (sEXPMAX + 1)

/-- Packed byte size of AMX_FUNCSTUBNT (amx.h): a ucell address followed
by a uint32 name offset into the name table. -/
def sizeofAMX_FUNCSTUBNT (w : Nat) : Nat := cellBytes w + 4

/-- The AMX instance structure of amx.h (the fields the embedded claims
touch).  `base` points at the header plus code image, `data` at the
optional separate data+stack+heap region (`none` models NULL); the cell
registers are data-relative byte offsets held in `Int`. -/
structure AMX where
  base : Int
  data : Option Int
  hdr : AMX_HEADER
  cip : Int
  frm : Int
  hea : Int
  hlw : Int
  stk : Int
  stp : Int
  flags : Nat
  usertags : List Int
  userdata : List Int
  error : Nat
  paramcount : Nat
  pri : Int
  alt : Int
  reset_stk : Int
  reset_hea : Int
deriving DecidableEq, Repr

/-- USENAMETABLE macro from amx.h: the name-table record shape is in use
exactly when `defsize` equals the size of AMX_FUNCSTUBNT. -/
def USENAMETABLE (w : Nat) (hdr : AMX_HEADER) : Bool :=
  hdr.defsize == sizeofAMX_FUNCSTUBNT w

/-- NUMENTRIES macro from amx.h applied to the publics table: the number
of records between the `publics` and `natives` offsets. -/
def numPublics (hdr : AMX_HEADER) : Nat :=
  ((hdr.natives - hdr.publics) / (hdr.defsize : Int)).toNat

/-- Modelled from the spec: the version gate of `amx_Init` (amx.c is
absent from the sources).  The file version must lie within
[MIN_FILE_VERSION, CUR_FILE_VERSION]; the required AMX version must be at
least MIN_AMX_VERSION, or, when the JIT is selected, at least
MIN_AMX_VER_JIT with the file version at most MAX_FILE_VER_JIT. -/
def versionOK (jit : Bool) (hdr : AMX_HEADER) : Prop :=
  MIN_FILE_VERSION ≤ hdr.file_version ∧
  hdr.file_version ≤ CUR_FILE_VERSION ∧
  (if jit then
    MIN_AMX_VER_JIT ≤ hdr.amx_version ∧ hdr.file_version ≤ MAX_FILE_VER_JIT
   else MIN_AMX_VERSION ≤ hdr.amx_version)

instance (jit : Bool) (hdr : AMX_HEADER) : Decidable (versionOK jit hdr) := by
  unfold versionOK
  infer_instance

/-- Modelled from the spec: the section-offset validation of `amx_Init`
(amx.c is absent from the sources).  The section offsets are ordered
`cod ≤ dat ≤ hea ≤ stp` and cell-aligned; one top stack slot is reserved,
so the stack region must hold at least one cell beyond the initial heap
top. -/
def offsetsOK (w : Nat) (hdr : AMX_HEADER) : Prop :=
  0 ≤ hdr.cod ∧ hdr.cod ≤ hdr.dat ∧ hdr.dat ≤ hdr.hea ∧ hdr.hea ≤ hdr.stp ∧
  hdr.cod % (cellBytes w : Int) = 0 ∧ hdr.dat % (cellBytes w : Int) = 0 ∧
  hdr.hea % (cellBytes w : Int) = 0 ∧ hdr.stp % (cellBytes w : Int) = 0 ∧
  hdr.hea + (cellBytes w : Int) ≤ hdr.stp

instance (w : Nat) (hdr : AMX_HEADER) : Decidable (offsetsOK w hdr) := by
  unfold offsetsOK
  infer_instance

/-- Modelled from the spec: the table-offset validation of `amx_Init`
(spec 4.1 step 2; amx.c is absent from the sources).  Every table offset
— publics, natives, libraries, pubvars, tags, nametable — is either zero
(the table is absent) or lies within `[header, size]`. -/
def tablesOK (hdr : AMX_HEADER) : Prop :=
  (hdr.publics = 0 ∨
    ((sizeofAMX_HEADER : Int) ≤ hdr.publics ∧ hdr.publics ≤ hdr.size)) ∧
  (hdr.natives = 0 ∨
    ((sizeofAMX_HEADER : Int) ≤ hdr.natives ∧ hdr.natives ≤ hdr.size)) ∧
  (hdr.libraries = 0 ∨
    ((sizeofAMX_HEADER : Int) ≤ hdr.libraries ∧ hdr.libraries ≤ hdr.size)) ∧
  (hdr.pubvars = 0 ∨
    ((sizeofAMX_HEADER : Int) ≤ hdr.pubvars ∧ hdr.pubvars ≤ hdr.size)) ∧
  (hdr.tags = 0 ∨
    ((sizeofAMX_HEADER : Int) ≤ hdr.tags ∧ hdr.tags ≤ hdr.size)) ∧
  (hdr.nametable = 0 ∨
    ((sizeofAMX_HEADER : Int) ≤ hdr.nametable ∧ hdr.nametable ≤ hdr.size))

instance (hdr : AMX_HEADER) : Decidable (tablesOK hdr) := by
  unfold tablesOK
  infer_instance

/-- Modelled from the spec: the heap/stack setup of `amx_Init` (amx.c is
absent from the sources).  `hlw := hea := header.hea - header.dat`;
`stp := header.stp - header.dat - sizeof(cell)` (top slot reserved);
`stk := stp`; `frm := stp`; `cip := header.cip`; the reset marks capture
the initial stack and heap values; the user data slots start empty. -/
def initState (w : Nat) (base : Int) (hdr : AMX_HEADER) : AMX :=
  { base := base
    data := none
    hdr := hdr
    cip := hdr.cip
    frm := hdr.stp - hdr.dat - (cellBytes w : Int)
    hea := hdr.hea - hdr.dat
    hlw := hdr.hea - hdr.dat
    stk := hdr.stp - hdr.dat - (cellBytes w : Int)
    stp := hdr.stp - hdr.dat - (cellBytes w : Int)
    flags := hdr.flags
    usertags := List.replicate AMX_USERNUM 0
    userdata := List.replicate AMX_USERNUM 0
    error := AMX_ERR_NONE
    paramcount := 0
    pri := 0
    alt := 0
    reset_stk := hdr.stp - hdr.dat - (cellBytes w : Int)
    reset_hea := hdr.hea - hdr.dat }

/-- Modelled from the spec: the validation order of `amx_Init` (amx.c is
absent from the sources).  A buffer too short for the fixed header or for
the declared image size is MEMORY; a magic not matching the build cell
width is FORMAT; a version outside the supported range is VERSION; the
step-2 layout checks — section offsets, `defsize` matching a record
shape, and every table offset zero or within `[header, size]` — fail
with FORMAT (they all surface the same error, so their relative order is
unobservable); otherwise the instance is bound with the registers of the
heap/stack setup. -/
def amx_Init (w : Nat) (jit : Bool) (buflen base : Int) (hdr : AMX_HEADER) :
    Except Nat AMX :=
  if buflen < (sizeofAMX_HEADER : Int) then .error AMX_ERR_MEMORY
  else if buflen < hdr.size then .error AMX_ERR_MEMORY
  else if AMX_MAGIC w ≠ some hdr.magic then .error AMX_ERR_FORMAT
  else if ¬ versionOK jit hdr then .error AMX_ERR_VERSION
  else if ¬ offsetsOK w hdr then .error AMX_ERR_FORMAT
  else if ¬ (hdr.defsize = sizeofAMX_FUNCSTUB w ∨
             hdr.defsize = sizeofAMX_FUNCSTUBNT w) then .error AMX_ERR_FORMAT
  else if ¬ tablesOK hdr then .error AMX_ERR_FORMAT
  else .ok (initState w base hdr)

/-- Modelled from the spec: `amx_Push` (amx.c is absent from the
sources).  A push checks `stk - cell ≥ hea + STKMARGIN`; on violation it
returns STACKERR and changes nothing; on success the stack pointer drops
one cell and `paramcount` counts the pushed argument cell. -/
def amx_Push (w : Nat) (a : AMX) (_value : Int) : Nat × AMX :=
  if a.hea + STKMARGIN w ≤ a.stk - (cellBytes w : Int) then
    (AMX_ERR_NONE,
      { a with stk := a.stk - (cellBytes w : Int)
               paramcount := a.paramcount + 1 })
  else (AMX_ERR_STACKERR, a)

/-- Modelled from the spec: the stack pop of the embedding API (amx.c is
absent from the sources).  Popping past the stack ceiling is the stack
underflow error STACKLOW and changes nothing; otherwise the stack
pointer rises one cell. -/
def amx_Pop (w : Nat) (a : AMX) : Nat × AMX :=
  if a.stk + (cellBytes w : Int) ≤ a.stp then
    (AMX_ERR_NONE, { a with stk := a.stk + (cellBytes w : Int) })
  else (AMX_ERR_STACKLOW, a)

/-- Modelled from the spec: `amx_Allot` (amx.c is absent from the
sources).  Allotting `cells` cells checks `hea + n·cell ≤ stk -
STKMARGIN`; on success the old heap top is returned as the script address
and `hea` advances past the allotment; on violation the call returns
HEAPLOW and `hea` is unchanged. -/
def amx_Allot (w : Nat) (a : AMX) (cells : Nat) : Nat × AMX × Int :=
  if a.hea + (cells : Int) * (cellBytes w : Int) ≤ a.stk - STKMARGIN w then
    (AMX_ERR_NONE,
      { a with hea := a.hea + (cells : Int) * (cellBytes w : Int) }, a.hea)
  else (AMX_ERR_HEAPLOW, a, 0)

/-- Modelled from the spec: `amx_Release` (amx.c is absent from the
sources).  Releasing rewinds `hea` to the given mark; a mark outside
`[hlw, current hea]` is rejected (HEAPLOW) and changes nothing. -/
def amx_Release (a : AMX) (mark : Int) : Nat × AMX :=
  if a.hlw ≤ mark ∧ mark ≤ a.hea then (AMX_ERR_NONE, { a with hea := mark })
  else (AMX_ERR_HEAPLOW, a)

/-- The stack and heap operations of the embedding API that move the
`stk` and `hea` registers. -/
inductive AmxOp where
  | push (value : Int)
  | pop
  | allot (cells : Nat)
  | release (mark : Int)
deriving DecidableEq, Repr

/-- Apply one stack/heap operation; the first component is the error code
and the second the resulting instance (unchanged when the operation
fails). -/
def applyOp (w : Nat) (a : AMX) : AmxOp → Nat × AMX
  | .push v => amx_Push w a v
  | .pop => amx_Pop w a
  | .allot n => ((amx_Allot w a n).1, (amx_Allot w a n).2.1)
  | .release m => amx_Release a m

/-- The states of an initialized AMX instance: the state a successful
`amx_Init` produces, closed under the stack and heap operations of the
embedding API (a failing operation leaves the state unchanged, so the
closure covers failing calls as well). -/
inductive Reachable (w : Nat) : AMX → Prop where
  | init (jit : Bool) (buflen base : Int) (hdr : AMX_HEADER) (a : AMX) :
      amx_Init w jit buflen base hdr = .ok a → Reachable w a
  | step (a : AMX) (op : AmxOp) :
      Reachable w a → Reachable w (applyOp w a op).2

/-- The documented ordering invariant over the heap-floor, heap-top,
stack-pointer and stack-ceiling registers. -/
def stackHeapInv (a : AMX) : Prop :=
  a.hlw ≤ a.hea ∧ a.hea ≤ a.stk ∧ a.stk ≤ a.stp

instance (a : AMX) : Decidable (stackHeapInv a) := by
  unfold stackHeapInv
  infer_instance

/-- The entry point an `amx_Exec` call selects. -/
inductive ExecEntry where
  | main
  | cont
  | publicIdx (n : Nat)
deriving DecidableEq, Repr

/-- Modelled from the spec: the index dispatch of `amx_Exec` (amx.c is
absent from the sources).  Index AMX_EXEC_MAIN runs the module's main
entry point (INDEX when the header records `cip = -1`, meaning there is
no main); AMX_EXEC_CONT resumes a sleeping instance from its saved
registers (the spec gives no transition for resuming an instance that is
not sleeping; that case is modelled as INVSTATE); a non-negative index
below the public count enters that public function; any other index is
INDEX.  On an INDEX error the instance is returned unchanged; on entry
`paramcount` is reset to zero and the sticky error is cleared. -/
def amx_Exec (a : AMX) (index : Int) : Nat × AMX × Option ExecEntry :=
  if index = AMX_EXEC_MAIN then
    (if a.hdr.cip = -1 then (AMX_ERR_INDEX, a, none)
     else (AMX_ERR_NONE,
           { a with paramcount := 0, cip := a.hdr.cip, error := AMX_ERR_NONE },
           some ExecEntry.main))
  else if index = AMX_EXEC_CONT then
    (if a.error = AMX_ERR_SLEEP then
       (AMX_ERR_NONE, { a with error := AMX_ERR_NONE }, some ExecEntry.cont)
     else (AMX_ERR_INVSTATE, a, none))
  else if 0 ≤ index ∧ index < (numPublics a.hdr : Int) then
    (AMX_ERR_NONE, { a with paramcount := 0, error := AMX_ERR_NONE },
     some (ExecEntry.publicIdx index.toNat))
  else (AMX_ERR_INDEX, a, none)

/-- Modelled from the spec: `amx_SetUserData` over the fixed user data
slot store (amx.c is absent from the sources).  A slot holding tag 0 is
free; setting an existing tag overwrites that slot's pointer; otherwise
the first free slot takes the tag; when every slot holds another tag the
call fails with USERDATA and the store is unchanged. -/
def amx_SetUserData (a : AMX) (tag ptr : Int) : Nat × AMX :=
  match a.usertags.findIdx? (· == tag) with
  | some i => (AMX_ERR_NONE, { a with userdata := a.userdata.set i ptr })
  | none =>
    match a.usertags.findIdx? (· == 0) with
    | some i =>
        (AMX_ERR_NONE,
         { a with usertags := a.usertags.set i tag
                  userdata := a.userdata.set i ptr })
    | none => (AMX_ERR_USERDATA, a)

/-- The amx_Address macro from amx.h: the separate data pointer when it is
non-NULL, otherwise the image base plus the header's `dat` offset, plus
the data-relative script address. -/
def amx_Address (a : AMX) (addr : Int) : Int :=
  (match a.data with
   | some d => d
   | none => a.base + a.hdr.dat) + addr

/-- A concrete well-formed header for a 32-bit cell build: the five tables
and the name table are empty, the image is 56 header bytes with
code, data and heap empty and a 1024-byte stack region. -/
def hdrEx : AMX_HEADER :=
  { size := 56
    magic := 0xf1e0
    file_version := 9
    amx_version := 10
    flags := 0
    defsize := 8
    cod := 56
    dat := 56
    hea := 56
    stp := 1080
    cip := 0
    publics := 56
    natives := 56
    libraries := 56
    pubvars := 56
    tags := 56
    nametable := 56 }

/-- The instance `amx_Init` builds from the concrete header. -/
def amxEx : AMX := initState 32 0 hdrEx

/-- The concrete header with the 16-bit magic, mismatching a 32-bit
build. -/
def hdrBadMagic : AMX_HEADER := { hdrEx with magic := 0xf1e2 }

/-- The concrete header with a `defsize` matching neither record
shape. -/
def hdrBadDefsize : AMX_HEADER := { hdrEx with defsize := 7 }

/-- The concrete instance suspended at a sleep opcode (sticky SLEEP
error). -/
def amxSleep : AMX := { amxEx with error := AMX_ERR_SLEEP }

/-- The concrete instance whose four user data slots all hold nonzero
tags. -/
def amxFull : AMX :=
  { amxEx with usertags := [1, 2, 3, 4], userdata := [10, 20, 30, 40] }

/-- The concrete instance with a separate data region attached. -/
def amxData : AMX := { amxEx with data := some 5000 }

/-- An instance every `amx_Init` produces satisfies the ordering
invariant: the validated header layout puts the heap floor at or below
the reserved stack top. -/
theorem amx_Init_ok_inv (w : Nat) (jit : Bool) (buflen base : Int)
    (hdr : AMX_HEADER) (a : AMX)
    (h : amx_Init w jit buflen base hdr = .ok a) : stackHeapInv a := by
  unfold amx_Init at h
  split_ifs at h with h1 h2 h3 h4 h5 h6 h7
  injection h with h'
  subst h'
  obtain ⟨-, -, -, -, -, -, -, -, h9⟩ := h5
  refine ⟨le_refl _, ?_, le_refl _⟩
  show hdr.hea - hdr.dat ≤ hdr.stp - hdr.dat - (cellBytes w : Int)
  omega

/-- A push preserves the ordering invariant. -/
theorem amx_Push_inv (w : Nat) (a : AMX) (v : Int) (h : stackHeapInv a) :
    stackHeapInv (amx_Push w a v).2 := by
  obtain ⟨i1, i2, i3⟩ := h
  unfold amx_Push
  split
  next hg =>
    simp only [STKMARGIN] at hg
    refine ⟨show a.hlw ≤ a.hea from i1, ?_, ?_⟩
    · show a.hea ≤ a.stk - (cellBytes w : Int)
      omega
    · show a.stk - (cellBytes w : Int) ≤ a.stp
      omega
  next => exact ⟨i1, i2, i3⟩

/-- A pop preserves the ordering invariant. -/
theorem amx_Pop_inv (w : Nat) (a : AMX) (h : stackHeapInv a) :
    stackHeapInv (amx_Pop w a).2 := by
  obtain ⟨i1, i2, i3⟩ := h
  unfold amx_Pop
  split
  next hg =>
    refine ⟨show a.hlw ≤ a.hea from i1, ?_, ?_⟩
    · show a.hea ≤ a.stk + (cellBytes w : Int)
      omega
    · show a.stk + (cellBytes w : Int) ≤ a.stp
      exact hg
  next => exact ⟨i1, i2, i3⟩

/-- A heap allotment preserves the ordering invariant. -/
theorem amx_Allot_inv (w : Nat) (a : AMX) (n : Nat) (h : stackHeapInv a) :
    stackHeapInv (amx_Allot w a n).2.1 := by
  obtain ⟨i1, i2, i3⟩ := h
  have hc : (0 : Int) ≤ (cellBytes w : Int) := Int.natCast_nonneg _
  have hn : (0 : Int) ≤ (n : Int) * (cellBytes w : Int) :=
    mul_nonneg (Int.natCast_nonneg _) hc
  unfold amx_Allot
  split
  next hg =>
    simp only [STKMARGIN] at hg
    refine ⟨?_, ?_, i3⟩
    · show a.hlw ≤ a.hea + (n : Int) * (cellBytes w : Int)
      linarith
    · show a.hea + (n : Int) * (cellBytes w : Int) ≤ a.stk
      linarith
  next => exact ⟨i1, i2, i3⟩

/-- A heap release preserves the ordering invariant. -/
theorem amx_Release_inv (a : AMX) (mark : Int) (h : stackHeapInv a) :
    stackHeapInv (amx_Release a mark).2 := by
  obtain ⟨i1, i2, i3⟩ := h
  unfold amx_Release
  split
  next hg =>
    refine ⟨show a.hlw ≤ mark from hg.1, ?_, i3⟩
    show mark ≤ a.stk
    exact le_trans hg.2 i2
  next => exact ⟨i1, i2, i3⟩

/-- Every reachable state of an initialized instance satisfies the
ordering invariant. -/
theorem reachable_stackHeapInv {w : Nat} {a : AMX} (h : Reachable w a) :
    stackHeapInv a := by
  induction h with
  | init jit buflen base hdr a hinit =>
      exact amx_Init_ok_inv w jit buflen base hdr a hinit
  | step a op hr ih =>
      cases op with
      | push v => exact amx_Push_inv w a v ih
      | pop => exact amx_Pop_inv w a ih
      | allot n => exact amx_Allot_inv w a n ih
      | release m => exact amx_Release_inv a m ih

/-- Claim C1 (corrected): every reachable state of an initialized AMX
instance satisfies the ordering `hlw ≤ hea ≤ stk ≤ stp`, and every stack
or heap operation that would violate the ordering fails leaving the
state unchanged — a push raising STACKERR, while a heap allotment or
release raises HEAPLOW and a pop past the stack ceiling raises
STACKLOW. -/
theorem stack_heap_order_corrected (w : Nat) (a : AMX) (v mark : Int)
    (n : Nat) (h : Reachable w a) :
    stackHeapInv a ∧
    (a.stk - (cellBytes w : Int) < a.hea →
      amx_Push w a v = (AMX_ERR_STACKERR, a)) ∧
    (a.stk < a.hea + (n : Int) * (cellBytes w : Int) →
      amx_Allot w a n = (AMX_ERR_HEAPLOW, a, 0)) ∧
    ((mark < a.hlw ∨ a.hea < mark) →
      amx_Release a mark = (AMX_ERR_HEAPLOW, a)) ∧
    (a.stp < a.stk + (cellBytes w : Int) →
      amx_Pop w a = (AMX_ERR_STACKLOW, a)) := by
  refine ⟨reachable_stackHeapInv h, ?_, ?_, ?_, ?_⟩
  · intro hv
    have hng : ¬ (a.hea + STKMARGIN w ≤ a.stk - (cellBytes w : Int)) := by
      simp only [STKMARGIN]
      omega
    unfold amx_Push
    rw [if_neg hng]
  · intro hv
    have hc : (0 : Int) ≤ 16 * (cellBytes w : Int) := by positivity
    have hng : ¬ (a.hea + (n : Int) * (cellBytes w : Int) ≤
        a.stk - STKMARGIN w) := by
      simp only [STKMARGIN]
      intro hle
      linarith
    unfold amx_Allot
    rw [if_neg hng]
  · intro hv
    have hng : ¬ (a.hlw ≤ mark ∧ mark ≤ a.hea) := by
      rcases hv with hl | hl
      · exact fun hc2 => absurd hc2.1 (not_le.mpr hl)
      · exact fun hc2 => absurd hc2.2 (not_le.mpr hl)
    unfold amx_Release
    rw [if_neg hng]
  · intro hv
    unfold amx_Pop
    rw [if_neg (not_le.mpr hv)]

/-- Claim C1 witness: a concretely initialized 32-bit instance is
reachable and the corrected statement holds there. -/
theorem stack_heap_order_corrected_witness :
    stackHeapInv amxEx ∧
    (amxEx.stk - (cellBytes 32 : Int) < amxEx.hea →
      amx_Push 32 amxEx 7 = (AMX_ERR_STACKERR, amxEx)) ∧
    (amxEx.stk < amxEx.hea + ((3 : Nat) : Int) * (cellBytes 32 : Int) →
      amx_Allot 32 amxEx 3 = (AMX_ERR_HEAPLOW, amxEx, 0)) ∧
    ((5 < amxEx.hlw ∨ amxEx.hea < 5) →
      amx_Release amxEx 5 = (AMX_ERR_HEAPLOW, amxEx)) ∧
    (amxEx.stp < amxEx.stk + (cellBytes 32 : Int) →
      amx_Pop 32 amxEx = (AMX_ERR_STACKLOW, amxEx)) :=
  stack_heap_order_corrected 32 amxEx 7 5 3
    (Reachable.init false 1080 0 hdrEx amxEx rfl)

/-- Claim C1 counterexample to the claim as stated: at a concrete
reachable state, a heap allotment that would push the heap top past the
stack pointer (violating `hea ≤ stk`) fails with HEAPLOW, not STACKERR,
leaving the state unchanged. -/
theorem stack_heap_order_cex :
    Reachable 32 amxEx ∧
    amxEx.stk < amxEx.hea + ((1000 : Nat) : Int) * (cellBytes 32 : Int) ∧
    (amx_Allot 32 amxEx 1000).1 = AMX_ERR_HEAPLOW ∧
    AMX_ERR_HEAPLOW ≠ AMX_ERR_STACKERR ∧
    (amx_Allot 32 amxEx 1000).2.1 = amxEx :=
  ⟨Reachable.init false 1080 0 hdrEx amxEx rfl,
   by decide, by decide, by decide, by decide⟩

/-- Claim C2: a push succeeds exactly when one cell below the stack
pointer stays at least STKMARGIN above the heap top and fails with
STACKERR otherwise without changing the state; an allotment of n cells
succeeds exactly when the advanced heap top stays at least STKMARGIN
below the stack pointer, advancing `hea` by n cells exactly on success
and leaving `hea` unchanged on failure; and STKMARGIN is 16 cells. -/
theorem push_allot_margin_discipline (w : Nat) (a : AMX) (v : Int)
    (n : Nat) :
    STKMARGIN w = 16 * (cellBytes w : Int) ∧
    ((amx_Push w a v).1 = AMX_ERR_NONE ↔
      a.hea + STKMARGIN w ≤ a.stk - (cellBytes w : Int)) ∧
    (¬ (a.hea + STKMARGIN w ≤ a.stk - (cellBytes w : Int)) →
      amx_Push w a v = (AMX_ERR_STACKERR, a)) ∧
    ((amx_Allot w a n).1 = AMX_ERR_NONE ↔
      a.hea + (n : Int) * (cellBytes w : Int) ≤ a.stk - STKMARGIN w) ∧
    ((amx_Allot w a n).1 = AMX_ERR_NONE →
      (amx_Allot w a n).2.1.hea =
        a.hea + (n : Int) * (cellBytes w : Int)) ∧
    ((amx_Allot w a n).1 ≠ AMX_ERR_NONE →
      (amx_Allot w a n).2.1.hea = a.hea) := by
  have h30 : AMX_ERR_STACKERR ≠ AMX_ERR_NONE := by decide
  have h80 : AMX_ERR_HEAPLOW ≠ AMX_ERR_NONE := by decide
  refine ⟨rfl, ?_, ?_, ?_, ?_, ?_⟩
  · by_cases hg : a.hea + STKMARGIN w ≤ a.stk - (cellBytes w : Int)
    · simp [amx_Push, hg]
    · simp [amx_Push, hg, h30]
  · intro hg
    unfold amx_Push
    rw [if_neg hg]
  · by_cases hg : a.hea + (n : Int) * (cellBytes w : Int) ≤
        a.stk - STKMARGIN w
    · simp [amx_Allot, hg]
    · simp [amx_Allot, hg, h80]
  · intro hs
    by_cases hg : a.hea + (n : Int) * (cellBytes w : Int) ≤
        a.stk - STKMARGIN w
    · simp [amx_Allot, hg]
    · exfalso
      revert hs
      simp [amx_Allot, hg, h80]
  · intro hs
    by_cases hg : a.hea + (n : Int) * (cellBytes w : Int) ≤
        a.stk - STKMARGIN w
    · exfalso
      apply hs
      simp [amx_Allot, hg]
    · simp [amx_Allot, hg]

/-- Claim C2 witness at a concretely initialized 32-bit instance. -/
theorem push_allot_margin_discipline_witness :
    STKMARGIN 32 = 16 * (cellBytes 32 : Int) ∧
    ((amx_Push 32 amxEx 7).1 = AMX_ERR_NONE ↔
      amxEx.hea + STKMARGIN 32 ≤ amxEx.stk - (cellBytes 32 : Int)) ∧
    (¬ (amxEx.hea + STKMARGIN 32 ≤ amxEx.stk - (cellBytes 32 : Int)) →
      amx_Push 32 amxEx 7 = (AMX_ERR_STACKERR, amxEx)) ∧
    ((amx_Allot 32 amxEx 2).1 = AMX_ERR_NONE ↔
      amxEx.hea + ((2 : Nat) : Int) * (cellBytes 32 : Int) ≤
        amxEx.stk - STKMARGIN 32) ∧
    ((amx_Allot 32 amxEx 2).1 = AMX_ERR_NONE →
      (amx_Allot 32 amxEx 2).2.1.hea =
        amxEx.hea + ((2 : Nat) : Int) * (cellBytes 32 : Int)) ∧
    ((amx_Allot 32 amxEx 2).1 ≠ AMX_ERR_NONE →
      (amx_Allot 32 amxEx 2).2.1.hea = amxEx.hea) :=
  push_allot_margin_discipline 32 amxEx 7 2

/-- Claim C3: the error codes form two stable numeric bands — NONE is 0,
EXIT through INVSTATE are the consecutive values 1 through 13 inside the
reserved exit-code range 1..15 in declaration order, and MEMORY through
GENERAL are the consecutive values 16 through 27 in declaration
order. -/
theorem error_code_bands :
    amxErrValues = [0, 1, 2, 3, 4, 5, 6, 7, 8, 9, 10, 11, 12, 13,
                    16, 17, 18, 19, 20, 21, 22, 23, 24, 25, 26, 27] ∧
    AMX_ERR_NONE = 0 ∧
    AMX_ERR_EXIT = 1 ∧ AMX_ERR_ASSERT = 2 ∧ AMX_ERR_STACKERR = 3 ∧
    AMX_ERR_BOUNDS = 4 ∧ AMX_ERR_MEMACCESS = 5 ∧ AMX_ERR_INVINSTR = 6 ∧
    AMX_ERR_STACKLOW = 7 ∧ AMX_ERR_HEAPLOW = 8 ∧ AMX_ERR_CALLBACK = 9 ∧
    AMX_ERR_NATIVE = 10 ∧ AMX_ERR_DIVIDE = 11 ∧ AMX_ERR_SLEEP = 12 ∧
    AMX_ERR_INVSTATE = 13 ∧
    (1 ≤ AMX_ERR_EXIT ∧ AMX_ERR_INVSTATE ≤ 15) ∧
    AMX_ERR_MEMORY = 16 ∧ AMX_ERR_FORMAT = 17 ∧ AMX_ERR_VERSION = 18 ∧
    AMX_ERR_NOTFOUND = 19 ∧ AMX_ERR_INDEX = 20 ∧ AMX_ERR_DEBUG = 21 ∧
    AMX_ERR_INIT = 22 ∧ AMX_ERR_USERDATA = 23 ∧ AMX_ERR_INIT_JIT = 24 ∧
    AMX_ERR_PARAMS = 25 ∧ AMX_ERR_DOMAIN = 26 ∧ AMX_ERR_GENERAL = 27 := by
  decide

/-- Claim C7: the instance flag bitset assigns exactly the documented
values and the eleven values are pairwise distinct single bits. -/
theorem flag_bits :
    AMX_FLAG_DEBUG = 0x02 ∧ AMX_FLAG_COMPACT = 0x04 ∧
    AMX_FLAG_SLEEP = 0x08 ∧ AMX_FLAG_NOCHECKS = 0x10 ∧
    AMX_FLAG_NO_RELOC = 0x200 ∧ AMX_FLAG_NO_SYSREQD = 0x400 ∧
    AMX_FLAG_SYSREQN = 0x800 ∧ AMX_FLAG_NTVREG = 0x1000 ∧
    AMX_FLAG_JITC = 0x2000 ∧ AMX_FLAG_BROWSE = 0x4000 ∧
    AMX_FLAG_RELOC = 0x8000 ∧
    amxFlagList = [2 ^ 1, 2 ^ 2, 2 ^ 3, 2 ^ 4, 2 ^ 9, 2 ^ 10, 2 ^ 11,
                   2 ^ 12, 2 ^ 13, 2 ^ 14, 2 ^ 15] ∧
    amxFlagList.Pairwise (fun x y => x ≠ y ∧ Nat.land x y = 0) := by
  decide

/-- Claim C4: the loader magic is 0xF1E2 for 16-bit cells, 0xF1E0 for
32-bit cells and 0xF1E1 for 64-bit cells, the three magics are pairwise
distinct, and a module whose magic does not match the instance's cell
width is rejected (FORMAT). -/
theorem magic_per_cell_width (w : Nat) (jit : Bool) (buflen base : Int)
    (hdr : AMX_HEADER)
    (hb1 : (sizeofAMX_HEADER : Int) ≤ buflen) (hb2 : hdr.size ≤ buflen)
    (hm : AMX_MAGIC w ≠ some hdr.magic) :
    AMX_MAGIC 16 = some 0xf1e2 ∧ AMX_MAGIC 32 = some 0xf1e0 ∧
    AMX_MAGIC 64 = some 0xf1e1 ∧ AMX_MAGIC_16 ≠ AMX_MAGIC_32 ∧
    AMX_MAGIC_16 ≠ AMX_MAGIC_64 ∧ AMX_MAGIC_32 ≠ AMX_MAGIC_64 ∧
    amx_Init w jit buflen base hdr = .error AMX_ERR_FORMAT := by
  refine ⟨rfl, rfl, rfl, by decide, by decide, by decide, ?_⟩
  unfold amx_Init
  rw [if_neg (not_lt.mpr hb1), if_neg (not_lt.mpr hb2), if_pos hm]

/-- Claim C4 witness: a 32-bit instance rejects a module carrying the
16-bit magic. -/
theorem magic_per_cell_width_witness :
    AMX_MAGIC 16 = some 0xf1e2 ∧ AMX_MAGIC 32 = some 0xf1e0 ∧
    AMX_MAGIC 64 = some 0xf1e1 ∧ AMX_MAGIC_16 ≠ AMX_MAGIC_32 ∧
    AMX_MAGIC_16 ≠ AMX_MAGIC_64 ∧ AMX_MAGIC_32 ≠ AMX_MAGIC_64 ∧
    amx_Init 32 false 1080 0 hdrBadMagic = .error AMX_ERR_FORMAT :=
  magic_per_cell_width 32 false 1080 0 hdrBadMagic (by decide) (by decide)
    (by decide)

/-- Claim C5: with every other validation passing — buffer length, magic,
section offsets, defsize and the table offsets — init accepts a module
exactly when its version fields pass the version gate — file_version in
[MIN_FILE_VERSION, CUR_FILE_VERSION] = [6, 9] and amx_version at least
MIN_AMX_VERSION = 10, or amx_version at least MIN_AMX_VER_JIT = 8 with
file_version at most MAX_FILE_VER_JIT = 8 when the JIT is selected —
and rejects it with the VERSION error otherwise. -/
theorem version_gate (w : Nat) (jit : Bool) (buflen base : Int)
    (hdr : AMX_HEADER)
    (hb1 : (sizeofAMX_HEADER : Int) ≤ buflen) (hb2 : hdr.size ≤ buflen)
    (hm : AMX_MAGIC w = some hdr.magic)
    (hoff : offsetsOK w hdr)
    (hdefs : hdr.defsize = sizeofAMX_FUNCSTUB w ∨
             hdr.defsize = sizeofAMX_FUNCSTUBNT w)
    (htab : tablesOK hdr) :
    CUR_FILE_VERSION = 9 ∧ MIN_FILE_VERSION = 6 ∧ MIN_AMX_VERSION = 10 ∧
    MAX_FILE_VER_JIT = 8 ∧ MIN_AMX_VER_JIT = 8 ∧
    ((∃ a, amx_Init w jit buflen base hdr = .ok a) ↔ versionOK jit hdr) ∧
    (versionOK jit hdr ↔
      (6 ≤ hdr.file_version ∧ hdr.file_version ≤ 9 ∧
       (if jit then 8 ≤ hdr.amx_version ∧ hdr.file_version ≤ 8
        else 10 ≤ hdr.amx_version))) ∧
    (¬ versionOK jit hdr →
      amx_Init w jit buflen base hdr = .error AMX_ERR_VERSION) := by
  refine ⟨rfl, rfl, rfl, rfl, rfl, ⟨?_, ?_⟩, Iff.rfl, ?_⟩
  · rintro ⟨a, ha⟩
    unfold amx_Init at ha
    split_ifs at ha with h1 h2 h3 h4
    exact h4
  · intro hv
    refine ⟨initState w base hdr, ?_⟩
    unfold amx_Init
    rw [if_neg (not_lt.mpr hb1), if_neg (not_lt.mpr hb2),
        if_neg (not_not_intro hm), if_neg (not_not_intro hv),
        if_neg (not_not_intro hoff), if_neg (not_not_intro hdefs),
        if_neg (not_not_intro htab)]
  · intro hv
    unfold amx_Init
    rw [if_neg (not_lt.mpr hb1), if_neg (not_lt.mpr hb2),
        if_neg (not_not_intro hm), if_pos hv]

/-- Claim C5 witness at the concrete well-formed header. -/
theorem version_gate_witness :
    CUR_FILE_VERSION = 9 ∧ MIN_FILE_VERSION = 6 ∧ MIN_AMX_VERSION = 10 ∧
    MAX_FILE_VER_JIT = 8 ∧ MIN_AMX_VER_JIT = 8 ∧
    ((∃ a, amx_Init 32 false 1080 0 hdrEx = .ok a) ↔
      versionOK false hdrEx) ∧
    (versionOK false hdrEx ↔
      (6 ≤ hdrEx.file_version ∧ hdrEx.file_version ≤ 9 ∧
       (if false then 8 ≤ hdrEx.amx_version ∧ hdrEx.file_version ≤ 8
        else 10 ≤ hdrEx.amx_version))) ∧
    (¬ versionOK false hdrEx →
      amx_Init 32 false 1080 0 hdrEx = .error AMX_ERR_VERSION) :=
  version_gate 32 false 1080 0 hdrEx (by decide) (by decide) (by decide)
    (by decide) (by decide) (by decide)

/-- Claim C6: the two on-disk table record shapes are a ucell address
followed by a 20-byte inline name (sEXPMAX = 19) and a ucell address
followed by a 32-bit name offset; the shapes have different sizes; the
name-table shape is in use exactly when defsize equals the size of the
name-table record; and a defsize matching neither shape is rejected at
load (FORMAT). -/
theorem defsize_record_shapes (w : Nat) (jit : Bool) (buflen base : Int)
    (hdr : AMX_HEADER)
    (hb1 : (sizeofAMX_HEADER : Int) ≤ buflen) (hb2 : hdr.size ≤ buflen)
    (hm : AMX_MAGIC w = some hdr.magic) (hv : versionOK jit hdr)
    (hoff : offsetsOK w hdr)
    (hdefs : ¬ (hdr.defsize = sizeofAMX_FUNCSTUB w ∨
                hdr.defsize = sizeofAMX_FUNCSTUBNT w)) :
    sEXPMAX = 19 ∧
    sizeofAMX_FUNCSTUB w = cellBytes w + 20 ∧
    sizeofAMX_FUNCSTUBNT w = cellBytes w + 4 ∧
    sizeofAMX_FUNCSTUB w ≠ sizeofAMX_FUNCSTUBNT w ∧
    (USENAMETABLE w hdr = true ↔ hdr.defsize = sizeofAMX_FUNCSTUBNT w) ∧
    amx_Init w jit buflen base hdr = .error AMX_ERR_FORMAT := by
  refine ⟨rfl, rfl, rfl, ?_, ?_, ?_⟩
  · simp only [sizeofAMX_FUNCSTUB, sizeofAMX_FUNCSTUBNT, sEXPMAX]
    omega
  · simp [USENAMETABLE]
  · unfold amx_Init
    rw [if_neg (not_lt.mpr hb1), if_neg (not_lt.mpr hb2),
        if_neg (not_not_intro hm), if_neg (not_not_intro hv),
        if_neg (not_not_intro hoff), if_pos hdefs]

/-- Claim C6 witness: a 32-bit instance rejects a header whose defsize
is 7, matching neither the 24-byte inline record nor the 8-byte
name-table record. -/
theorem defsize_record_shapes_witness :
    sEXPMAX = 19 ∧
    sizeofAMX_FUNCSTUB 32 = cellBytes 32 + 20 ∧
    sizeofAMX_FUNCSTUBNT 32 = cellBytes 32 + 4 ∧
    sizeofAMX_FUNCSTUB 32 ≠ sizeofAMX_FUNCSTUBNT 32 ∧
    (USENAMETABLE 32 hdrBadDefsize = true ↔
      hdrBadDefsize.defsize = sizeofAMX_FUNCSTUBNT 32) ∧
    amx_Init 32 false 1080 0 hdrBadDefsize = .error AMX_ERR_FORMAT :=
  defsize_record_shapes 32 false 1080 0 hdrBadDefsize (by decide)
    (by decide) (by decide) (by decide) (by decide) (by decide)

/-- Claim C8: exec with index -1 (AMX_EXEC_MAIN) runs the module's main
entry point (INDEX, state unchanged, when the module has no main), exec
with index -2 (AMX_EXEC_CONT) resumes a sleeping instance from its saved
registers, exec with a non-negative index below the public count invokes
the public function at that index, and a non-negative index naming no
public fails with the INDEX error leaving the instance unchanged. -/
theorem exec_index_dispatch (a : AMX) (index : Int) :
    AMX_EXEC_MAIN = -1 ∧ AMX_EXEC_CONT = -2 ∧
    (a.hdr.cip ≠ -1 →
      (amx_Exec a AMX_EXEC_MAIN).1 = AMX_ERR_NONE ∧
      (amx_Exec a AMX_EXEC_MAIN).2.2 = some ExecEntry.main) ∧
    (a.hdr.cip = -1 →
      amx_Exec a AMX_EXEC_MAIN = (AMX_ERR_INDEX, a, none)) ∧
    (a.error = AMX_ERR_SLEEP →
      (amx_Exec a AMX_EXEC_CONT).1 = AMX_ERR_NONE ∧
      (amx_Exec a AMX_EXEC_CONT).2.2 = some ExecEntry.cont ∧
      (amx_Exec a AMX_EXEC_CONT).2.1.cip = a.cip ∧
      (amx_Exec a AMX_EXEC_CONT).2.1.pri = a.pri ∧
      (amx_Exec a AMX_EXEC_CONT).2.1.alt = a.alt ∧
      (amx_Exec a AMX_EXEC_CONT).2.1.frm = a.frm ∧
      (amx_Exec a AMX_EXEC_CONT).2.1.stk = a.stk ∧
      (amx_Exec a AMX_EXEC_CONT).2.1.hea = a.hea) ∧
    (0 ≤ index → index < (numPublics a.hdr : Int) →
      (amx_Exec a index).1 = AMX_ERR_NONE ∧
      (amx_Exec a index).2.2 = some (ExecEntry.publicIdx index.toNat)) ∧
    (0 ≤ index → (numPublics a.hdr : Int) ≤ index →
      amx_Exec a index = (AMX_ERR_INDEX, a, none)) := by
  refine ⟨rfl, rfl, ?_, ?_, ?_, ?_, ?_⟩
  · intro h
    unfold amx_Exec
    rw [if_pos rfl, if_neg h]
    exact ⟨rfl, rfl⟩
  · intro h
    unfold amx_Exec
    rw [if_pos rfl, if_pos h]
  · intro h
    unfold amx_Exec
    rw [if_neg (by decide : ¬ (AMX_EXEC_CONT = AMX_EXEC_MAIN)), if_pos rfl,
        if_pos h]
    exact ⟨rfl, rfl, rfl, rfl, rfl, rfl, rfl, rfl⟩
  · intro h0 h1
    have hm : ¬ (index = AMX_EXEC_MAIN) := by
      simp only [AMX_EXEC_MAIN]
      omega
    have hc : ¬ (index = AMX_EXEC_CONT) := by
      simp only [AMX_EXEC_CONT]
      omega
    unfold amx_Exec
    rw [if_neg hm, if_neg hc, if_pos ⟨h0, h1⟩]
    exact ⟨rfl, rfl⟩
  · intro h0 h1
    have hm : ¬ (index = AMX_EXEC_MAIN) := by
      simp only [AMX_EXEC_MAIN]
      omega
    have hc : ¬ (index = AMX_EXEC_CONT) := by
      simp only [AMX_EXEC_CONT]
      omega
    have hp : ¬ (0 ≤ index ∧ index < (numPublics a.hdr : Int)) :=
      fun hcon => absurd hcon.2 (not_lt.mpr h1)
    unfold amx_Exec
    rw [if_neg hm, if_neg hc, if_neg hp]

/-- Claim C8 witness at a concrete sleeping instance with an empty
publics table and with index 0. -/
theorem exec_index_dispatch_witness :
    AMX_EXEC_MAIN = -1 ∧ AMX_EXEC_CONT = -2 ∧
    (amxSleep.hdr.cip ≠ -1 →
      (amx_Exec amxSleep AMX_EXEC_MAIN).1 = AMX_ERR_NONE ∧
      (amx_Exec amxSleep AMX_EXEC_MAIN).2.2 = some ExecEntry.main) ∧
    (amxSleep.hdr.cip = -1 →
      amx_Exec amxSleep AMX_EXEC_MAIN = (AMX_ERR_INDEX, amxSleep, none)) ∧
    (amxSleep.error = AMX_ERR_SLEEP →
      (amx_Exec amxSleep AMX_EXEC_CONT).1 = AMX_ERR_NONE ∧
      (amx_Exec amxSleep AMX_EXEC_CONT).2.2 = some ExecEntry.cont ∧
      (amx_Exec amxSleep AMX_EXEC_CONT).2.1.cip = amxSleep.cip ∧
      (amx_Exec amxSleep AMX_EXEC_CONT).2.1.pri = amxSleep.pri ∧
      (amx_Exec amxSleep AMX_EXEC_CONT).2.1.alt = amxSleep.alt ∧
      (amx_Exec amxSleep AMX_EXEC_CONT).2.1.frm = amxSleep.frm ∧
      (amx_Exec amxSleep AMX_EXEC_CONT).2.1.stk = amxSleep.stk ∧
      (amx_Exec amxSleep AMX_EXEC_CONT).2.1.hea = amxSleep.hea) ∧
    (0 ≤ (0 : Int) → (0 : Int) < (numPublics amxSleep.hdr : Int) →
      (amx_Exec amxSleep 0).1 = AMX_ERR_NONE ∧
      (amx_Exec amxSleep 0).2.2 =
        some (ExecEntry.publicIdx (0 : Int).toNat)) ∧
    (0 ≤ (0 : Int) → (numPublics amxSleep.hdr : Int) ≤ (0 : Int) →
      amx_Exec amxSleep 0 = (AMX_ERR_INDEX, amxSleep, none)) :=
  exec_index_dispatch amxSleep 0

/-- A list containing no occurrence of `x` yields no index for it. -/
theorem findIdx_beq_eq_none_of_not_mem (l : List Int) (x : Int)
    (h : x ∉ l) : l.findIdx? (· == x) = none := by
  rw [List.findIdx?_eq_none_iff]
  intro y hy
  rw [beq_eq_false_iff_ne]
  exact fun he => h (he ▸ hy)

/-- Claim C9: the user-data store is a fixed array of AMX_USERNUM = 4
slots keyed by tag; a set_user_data never changes the slot count, and
setting a tag when every slot holds another (nonzero) tag fails with the
USERDATA error leaving the store unchanged. -/
theorem userdata_fixed_store (a : AMX) (tag ptr : Int)
    (hlen : a.usertags.length = AMX_USERNUM) :
    AMX_USERNUM = 4 ∧
    (amx_SetUserData a tag ptr).2.usertags.length = AMX_USERNUM ∧
    (amx_SetUserData a tag ptr).2.userdata.length = a.userdata.length ∧
    (tag ∉ a.usertags → (0 : Int) ∉ a.usertags →
      amx_SetUserData a tag ptr = (AMX_ERR_USERDATA, a)) := by
  refine ⟨rfl, ?_, ?_, ?_⟩
  · unfold amx_SetUserData
    cases h1 : a.usertags.findIdx? (· == tag) with
    | some i => exact hlen
    | none =>
      cases h2 : a.usertags.findIdx? (· == 0) with
      | some i =>
          show (a.usertags.set i tag).length = AMX_USERNUM
          rw [List.length_set]
          exact hlen
      | none => exact hlen
  · unfold amx_SetUserData
    cases h1 : a.usertags.findIdx? (· == tag) with
    | some i =>
        show (a.userdata.set i ptr).length = a.userdata.length
        exact List.length_set a.userdata i ptr
    | none =>
      cases h2 : a.usertags.findIdx? (· == 0) with
      | some i =>
          show (a.userdata.set i ptr).length = a.userdata.length
          exact List.length_set a.userdata i ptr
      | none => rfl
  · intro ht h0
    have e1 := findIdx_beq_eq_none_of_not_mem a.usertags tag ht
    have e2 := findIdx_beq_eq_none_of_not_mem a.usertags 0 h0
    unfold amx_SetUserData
    rw [e1, e2]

/-- Claim C9 witness: at a concrete instance with all four slots holding
other tags, inserting a fifth tag fails. -/
theorem userdata_fixed_store_witness :
    AMX_USERNUM = 4 ∧
    (amx_SetUserData amxFull 5 99).2.usertags.length = AMX_USERNUM ∧
    (amx_SetUserData amxFull 5 99).2.userdata.length =
      amxFull.userdata.length ∧
    ((5 : Int) ∉ amxFull.usertags → (0 : Int) ∉ amxFull.usertags →
      amx_SetUserData amxFull 5 99 = (AMX_ERR_USERDATA, amxFull)) :=
  userdata_fixed_store amxFull 5 99 (by decide)

/-- Claim C10: the resolved host address equals data + addr when the
separate data pointer is non-NULL and base + header.dat + addr when it
is NULL; in particular a script address resolves into the shared image
exactly when no genuinely separate data region is attached. -/
theorem address_resolution (a : AMX) (addr d : Int) :
    (a.data = some d → amx_Address a addr = d + addr) ∧
    (a.data = none → amx_Address a addr = a.base + a.hdr.dat + addr) ∧
    (a.data = some d → d ≠ a.base + a.hdr.dat →
      amx_Address a addr ≠ a.base + a.hdr.dat + addr) := by
  refine ⟨?_, ?_, ?_⟩
  · intro h
    unfold amx_Address
    rw [h]
  · intro h
    unfold amx_Address
    rw [h]
  · intro h hne
    unfold amx_Address
    rw [h]
    show d + addr ≠ a.base + a.hdr.dat + addr
    omega

/-- Claim C10 witness at a concrete instance with a separate data region
at host address 5000. -/
theorem address_resolution_witness :
    (amxData.data = some 5000 → amx_Address amxData 12 = 5000 + 12) ∧
    (amxData.data = none →
      amx_Address amxData 12 = amxData.base + amxData.hdr.dat + 12) ∧
    (amxData.data = some 5000 →
      (5000 : Int) ≠ amxData.base + amxData.hdr.dat →
      amx_Address amxData 12 ≠ amxData.base + amxData.hdr.dat + 12) :=
  address_resolution amxData 12 5000

end Amx
